import Mathlib

/-!
Shallow embedding of the fedimint consensus server
(`fedimint-server/src/consensus/server.rs`) and verification of the
specification's claims about it.

The persisted keyspaces of the server become an explicit `DbState` record; a
database transaction becomes explicit state passing, where `bail!` before
`commit_tx_result` leaves the persisted state untouched.  External
collaborators (module implementations, the transaction processor, threshold
cryptography, encoders/decoders) are abstracted as function-valued fields of a
`Server` record, exactly mirroring the call sites in the source.
-/

namespace FedimintConsensus

/-- Peer identifier, an opaque integer per federation member. -/
abbrev PeerId := Nat

/-- Opaque module consensus item: the owning instance id and an opaque payload. -/
structure ModuleItem where
  moduleInstanceId : Nat
  payload : Nat
deriving DecidableEq, Repr

/-- One transaction output; only its owning module instance id is relevant here. -/
structure TxOutput where
  moduleInstanceId : Nat
deriving DecidableEq, Repr

/-- A transaction with its content hash (opaque) and outputs. -/
structure Transaction where
  txHash : Nat
  outputs : List TxOutput
deriving DecidableEq, Repr

/-- The tagged consensus-item variants of `fedimint_core::epoch::ConsensusItem`. -/
inductive ConsensusItem
  | module (item : ModuleItem)
  | transaction (tx : Transaction)
  | clientConfigSignatureShare (share : Nat)
deriving DecidableEq, Repr

/-- What was accepted at an item index: the item and the proposing peer. -/
structure AcceptedItem where
  item : ConsensusItem
  peer : PeerId
deriving DecidableEq, Repr

/-- A block: the ordered sequence of accepted items of one session. -/
structure Block where
  items : List AcceptedItem
deriving DecidableEq, Repr

/-- A block together with the collected peer signatures over its header. -/
structure SignedBlock where
  block : Block
  signatures : List (PeerId × Nat)
deriving DecidableEq, Repr

/-- An ordered keyspace of the database, keyed by naturals. -/
abbrev AssocMap (V : Type) := List (Nat × V)

/-- Value lookup in a keyspace (`dbtx.get_value`). -/
def getValue {V : Type} : AssocMap V → Nat → Option V
  | [], _ => none
  | (k', v) :: rest, k => if k' = k then some v else getValue rest k

/-- Insert or overwrite an entry in a keyspace (`dbtx.insert_entry`). -/
def insertEntry {V : Type} : AssocMap V → Nat → V → AssocMap V
  | [], k, v => [(k, v)]
  | (k', v') :: rest, k, v =>
      if k' = k then (k, v) :: rest else (k', v') :: insertEntry rest k v

theorem getValue_insertEntry_self {V : Type} (m : AssocMap V) (k : Nat) (v : V) :
    getValue (insertEntry m k v) k = some v := by
  induction m with
  | nil => simp [insertEntry, getValue]
  | cons p rest ih =>
      obtain ⟨k', v'⟩ := p
      by_cases h : k' = k
      · simp [insertEntry, getValue, h]
      · simp [insertEntry, getValue, h, ih]

theorem getValue_insertEntry_ne {V : Type} (m : AssocMap V) (k j : Nat) (v : V)
    (h : j ≠ k) : getValue (insertEntry m k v) j = getValue m j := by
  have h' : ¬ k = j := fun e => h e.symm
  induction m with
  | nil => simp [insertEntry, getValue, h']
  | cons p rest ih =>
      obtain ⟨k', v'⟩ := p
      by_cases hk : k' = k
      · subst hk
        simp [insertEntry, getValue, h']
      · by_cases hj : k' = j
        · subst hj
          simp [insertEntry, getValue, hk]
        · simp [insertEntry, getValue, hk, hj, ih]

/-- The persisted keyspaces owned by the consensus server, plus the opaque
state `σ` of the module keyspaces (prefix-scoped sub-transactions). -/
structure DbState (σ : Type) where
  acceptedItems : AssocMap AcceptedItem
  acceptedTransactions : AssocMap (List Nat)
  signedBlocks : AssocMap SignedBlock
  alephUnits : AssocMap (List Nat)
  clientConfigSignature : Option Nat
  clientConfigSignatureShares : AssocMap Nat
  moduleState : σ
deriving DecidableEq, Repr

/-- The capability surface of one registered module instance used by the item
processor: `process_consensus_item` and `audit`. -/
structure ModuleIface (σ : Type) where
  processItem : σ → ModuleItem → PeerId → Except String σ
  audit : σ → Int

/-- The consensus server's environment: configuration and the external
collaborators it calls, abstracted as functions.  `moduleFor` is
`modules.get_expect`; it is total because the decoders run in reject-unknown
mode, so every decoded item addresses a registered module instance. -/
structure Server (σ : Type) where
  moduleFor : Nat → ModuleIface σ
  moduleIds : List Nat
  processTransaction : σ → Transaction → Except String σ
  verifyShare : PeerId → Nat → Bool
  combineShares : List (Nat × Nat) → Nat
  authThreshold : Nat
  keychainThreshold : Nat
  peerCount : Nat
  localIdentity : PeerId
  sign : Nat → Nat
  verify : Nat → Nat → Nat → Bool
  toNodeIndex : PeerId → Nat
  headerOf : Nat → Block → Nat
  decodeItems : List Nat → Except String (List ConsensusItem)
  decodeSignedBlock : List Nat → Except String SignedBlock

/-- Aggregate audit: iterate every module's `audit` and sum the net assets
(`audit.net_assets().milli_sat` of the accumulated `Audit`). -/
def aggregateAudit {σ : Type} (srv : Server σ) (ms : σ) : Int :=
  (srv.moduleIds.map (fun i => (srv.moduleFor i).audit ms)).sum

/-- Outcome of a code path that owns a database transaction: `ok` commits the
new state, `err` aborts the transaction (the carried state is what remains
persisted), `panic` kills the process. -/
inductive Outcome (α : Type)
  | ok (a : α)
  | err (msg : String) (a : α)
  | panic (msg : String)
deriving DecidableEq, Repr

/-- Embedding of `process_consensus_item_with_db_transaction`: dispatch on the
item variant inside the open transaction, returning the updated pending state
or the `bail!` message. -/
def processWithDbtx {σ : Type} (srv : Server σ) (s : DbState σ)
    (consensusItem : ConsensusItem) (peerId : PeerId) : Except String (DbState σ) :=
  match consensusItem with
  | .module moduleItem =>
      match (srv.moduleFor moduleItem.moduleInstanceId).processItem
          s.moduleState moduleItem peerId with
      | .error e => .error e
      | .ok ms => .ok { s with moduleState := ms }
  | .transaction transaction =>
      if (getValue s.acceptedTransactions transaction.txHash).isSome then
        .error "The transaction is already accepted"
      else
        let txid := transaction.txHash
        let modulesIds := transaction.outputs.map (·.moduleInstanceId)
        match srv.processTransaction s.moduleState transaction with
        | .error e => .error e
        | .ok ms =>
            .ok { s with
                  moduleState := ms,
                  acceptedTransactions := insertEntry s.acceptedTransactions txid modulesIds }
  | .clientConfigSignatureShare signatureShare =>
      if s.clientConfigSignature.isSome then
        .error "Client config is already signed"
      else if (getValue s.clientConfigSignatureShares peerId).isSome then
        .error "Already received a valid signature share for this peer"
      else if ¬ srv.verifyShare peerId signatureShare then
        .error "Client config signature share is invalid"
      else
        let signatureShares := insertEntry s.clientConfigSignatureShares peerId signatureShare
        if signatureShares.length ≤ srv.authThreshold then
          .ok { s with clientConfigSignatureShares := signatureShares }
        else
          .ok { s with
                clientConfigSignatureShares := [],
                clientConfigSignature := some (srv.combineShares signatureShares) }

/-- Embedding of `process_consensus_item`: the idempotency / recovery guard on
`AcceptedItem[item_index]`, then variant dispatch, then insertion of the
accepted item, the aggregate audit check, and the commit.  The
`latest_contribution_by_peer` update is in-memory only and not part of the
persisted state. -/
def processConsensusItem {σ : Type} (srv : Server σ) (s : DbState σ)
    (sessionIndex itemIndex : Nat) (item : ConsensusItem) (peer : PeerId) :
    Outcome (DbState σ) :=
  match getValue s.acceptedItems itemIndex with
  | some acceptedItem =>
      if acceptedItem.item = item ∧ acceptedItem.peer = peer then
        .ok s
      else
        .err "Consensus item was discarded before recovery" s
  | none =>
      match processWithDbtx srv s item peer with
      | .error e => .err e s
      | .ok s1 =>
          let s2 := { s1 with
                      acceptedItems := insertEntry s1.acceptedItems itemIndex ⟨item, peer⟩ }
          if aggregateAudit srv s2.moduleState < 0 then
            .panic "Balance sheet of the fed has gone negative"
          else
            .ok s2

/-- Insert a keyed accepted item into a list sorted by key (helper for the
ordered iteration of `find_by_prefix`). -/
def insertSortedByKey (p : Nat × AcceptedItem) :
    List (Nat × AcceptedItem) → List (Nat × AcceptedItem)
  | [] => [p]
  | q :: rest => if p.1 ≤ q.1 then p :: q :: rest else q :: insertSortedByKey p rest

/-- Sort a keyspace by key, as the database's ordered prefix scan yields it. -/
def sortByKey (l : List (Nat × AcceptedItem)) : List (Nat × AcceptedItem) :=
  l.foldr insertSortedByKey []

/-- Embedding of `build_block`: stream the `AcceptedItem` keyspace in key order
and collect the values. -/
def buildBlock {σ : Type} (s : DbState σ) : Block :=
  ⟨(sortByKey s.acceptedItems).map (·.2)⟩

/-- Embedding of `complete_session`: clear `AlephUnits`, clear `AcceptedItem`,
insert `SignedBlock[session_index]` — panicking if one was already stored —
and commit all of it atomically. -/
def completeSession {σ : Type} (s : DbState σ) (sessionIndex : Nat)
    (signedBlock : SignedBlock) : Outcome (DbState σ) :=
  let s1 := { s with alephUnits := [] }
  let s2 := { s1 with acceptedItems := [] }
  match getValue s2.signedBlocks sessionIndex with
  | some _ => .panic "We tried to overwrite a signed block"
  | none =>
      .ok { s2 with signedBlocks := insertEntry s2.signedBlocks sessionIndex signedBlock }

/-- Catch-up tail processing in `complete_signed_block`: each unprocessed
accepted item of the fetched block is fed through `process_consensus_item` and
`assert!(result.is_ok())` turns any error into a panic. -/
def processTail {σ : Type} (srv : Server σ) (s : DbState σ)
    (sessionIndex itemIndex : Nat) :
    List AcceptedItem → Outcome (DbState σ × Nat)
  | [] => .ok (s, itemIndex)
  | acceptedItem :: rest =>
      match processConsensusItem srv s sessionIndex itemIndex
          acceptedItem.item acceptedItem.peer with
      | .ok s' => processTail srv s' sessionIndex (itemIndex + 1) rest
      | .err m _ => .panic ("assertion failed, tail item was rejected: " ++ m)
      | .panic m => .panic m

/-- The catch-up branch of `complete_signed_block`: split the fetched block at
the length of the locally built partial block, `assert!` that the processed
half equals the local items, process the tail, and return the fetched signed
block verbatim. -/
def catchUpReconcile {σ : Type} (srv : Server σ) (s : DbState σ)
    (sessionIndex itemIndex : Nat) (signedBlock : SignedBlock) :
    Outcome (DbState σ × SignedBlock) :=
  if signedBlock.block.items.take (buildBlock s).items.length = (buildBlock s).items then
    match processTail srv s sessionIndex itemIndex
        (signedBlock.block.items.drop (buildBlock s).items.length) with
    | .ok (s', _) => .ok (s', signedBlock)
    | .err m _ => .panic m
    | .panic m => .panic m
  else
    .panic "assertion failed, processed items do not match the local block"

/-- The unit data the BFT library delivers: an encoded batch of consensus
items, or a peer's signature share over the block header. -/
inductive UnitData
  | batch (bytes : List Nat)
  | signature (sig : Nat)
deriving DecidableEq, Repr

/-- Phase A item loop of `complete_signed_block`: process a decoded batch item
by item; a successful call advances `item_index`, a rejected item is dropped
with `item_index` unchanged. -/
def processBatchItems {σ : Type} (srv : Server σ) (s : DbState σ)
    (sessionIndex itemIndex : Nat) (peer : PeerId) :
    List ConsensusItem → Outcome (DbState σ × Nat)
  | [] => .ok (s, itemIndex)
  | item :: rest =>
      match processConsensusItem srv s sessionIndex itemIndex item peer with
      | .ok s' => processBatchItems srv s' sessionIndex (itemIndex + 1) peer rest
      | .err _ _ => processBatchItems srv s sessionIndex itemIndex peer rest
      | .panic m => .panic m

/-- One delivery step of phase A of `complete_signed_block`: a `Batch` is
decoded as a `Vec<ConsensusItem>`; decoding failure drops the batch, decoding
success processes the items; either way `num_batches` is incremented.  A
`Signature` unit is ignored in this phase. -/
def phaseAStep {σ : Type} (srv : Server σ) (s : DbState σ)
    (sessionIndex numBatches itemIndex : Nat) (unitData : UnitData) (peer : PeerId) :
    Outcome (DbState σ × Nat × Nat) :=
  match unitData with
  | .signature _ => .ok (s, numBatches, itemIndex)
  | .batch bytes =>
      match srv.decodeItems bytes with
      | .error _ => .ok (s, numBatches + 1, itemIndex)
      | .ok items =>
          match processBatchItems srv s sessionIndex itemIndex peer items with
          | .ok (s', itemIndex') => .ok (s', numBatches + 1, itemIndex')
          | .err m a => .err m (a.1, numBatches + 1, a.2)
          | .panic m => .panic m

/-- The filter-map of `request_signed_block`: decode the response under the
module decoder registry, then accept it exactly when it carries
`threshold()`-many signatures that all verify against the block's header for
the requested session index under the claimed peer's node index. -/
def filterMapResponse {σ : Type} (srv : Server σ) (index : Nat)
    (response : List Nat) : Except String SignedBlock :=
  match srv.decodeSignedBlock response with
  | .ok signedBlock =>
      if signedBlock.signatures.length == srv.keychainThreshold
          && signedBlock.signatures.all (fun p =>
              srv.verify (srv.headerOf index signedBlock.block) p.2 (srv.toNodeIndex p.1)) then
        .ok signedBlock
      else
        .error "Invalid signatures"
  | .error e => .error e

/-- One observable event at the single-guardian submission receiver: an item
arrives (tagged with the seconds elapsed since session start, as read at the
timeout check that follows processing it), or the channel is closed. -/
inductive RecvEvent
  | received (item : ConsensusItem) (elapsedSecs : Nat)
  | closed
deriving DecidableEq, Repr

/-- Result of the single-guardian item loop: the loop broke out (timeout or
closed channel), is still blocked awaiting `recv`, or the process panicked. -/
inductive LoopResult (σ : Type)
  | finished (s : DbState σ) (itemIndex : Nat)
  | stillWaiting (s : DbState σ) (itemIndex : Nat)
  | panicked (msg : String)
deriving DecidableEq, Repr

/-- Embedding of the `while let Ok(item) = recv()` loop of
`run_single_guardian`: each received item is processed (success advances
`item_index`), and only after processing an item is the 60-second timeout
checked.  An exhausted event list means `recv` is still pending: with no
further submissions the loop blocks and never observes the timeout. -/
def singleGuardianLoop {σ : Type} (srv : Server σ) (s : DbState σ)
    (sessionIndex itemIndex : Nat) : List RecvEvent → LoopResult σ
  | [] => .stillWaiting s itemIndex
  | .closed :: _ => .finished s itemIndex
  | .received item elapsedSecs :: rest =>
      match processConsensusItem srv s sessionIndex itemIndex item srv.localIdentity with
      | .panic m => .panicked m
      | .ok s' =>
          if 60 < elapsedSecs then .finished s' (itemIndex + 1)
          else singleGuardianLoop srv s' sessionIndex (itemIndex + 1) rest
      | .err _ _ =>
          if 60 < elapsedSecs then .finished s itemIndex
          else singleGuardianLoop srv s sessionIndex itemIndex rest

/-- Result of one single-guardian session body: the session completed and
committed, or the loop is still blocked on `recv`, or the process panicked. -/
inductive SessionResult (σ : Type)
  | completed (s : DbState σ)
  | blocked (s : DbState σ)
  | panicked (msg : String)
deriving DecidableEq, Repr

/-- One iteration of the `run_single_guardian` outer loop: seed `item_index`
from the partial block, run the item loop, then build the block, self-sign its
header under the local identity, and finalize via `complete_session`. -/
def runSingleGuardianSession {σ : Type} (srv : Server σ) (s : DbState σ)
    (sessionIndex : Nat) (events : List RecvEvent) : SessionResult σ :=
  let itemIndex := (buildBlock s).items.length
  match singleGuardianLoop srv s sessionIndex itemIndex events with
  | .panicked m => .panicked m
  | .stillWaiting s' _ => .blocked s'
  | .finished s' _ =>
      let block := buildBlock s'
      let header := srv.headerOf sessionIndex block
      let signature := srv.sign header
      let signatures := [(srv.localIdentity, signature)]
      match completeSession s' sessionIndex { block := block, signatures := signatures } with
      | .ok s'' => .completed s''
      | .err m _ => .panicked m
      | .panic m => .panicked m

/-- Which path the outer server loop takes, or that it panics. -/
inductive RunPath
  | singleGuardian
  | multiGuardian
  | panicked
deriving DecidableEq, Repr

/-- Embedding of the entry of `run_consensus`: it asserts that the federation
has at least four members before running the atomic broadcast. -/
def runConsensusEntry (broadcastPublicKeysLen : Nat) : RunPath :=
  if 4 ≤ broadcastPublicKeysLen then .multiGuardian else .panicked

/-- Embedding of `run`: dispatch on `broadcast_public_keys.len()` — exactly one
member runs the single-guardian path, anything else enters `run_consensus`. -/
def runDispatch (broadcastPublicKeysLen : Nat) : RunPath :=
  if broadcastPublicKeysLen = 1 then .singleGuardian
  else runConsensusEntry broadcastPublicKeysLen

/-- A concrete module instance over state `Nat`, for evaluating the embedding
on closed inputs. -/
def natModule : ModuleIface Nat where
  processItem := fun ms _ _ => .ok ms
  audit := fun _ => 0

/-- A concrete server over module state `Nat`, for evaluating the embedding on
closed inputs. -/
def natServer : Server Nat where
  moduleFor := fun _ => natModule
  moduleIds := [0]
  processTransaction := fun ms _ => .ok ms
  verifyShare := fun _ _ => true
  combineShares := fun _ => 99
  authThreshold := 2
  keychainThreshold := 3
  peerCount := 4
  localIdentity := 0
  sign := fun h => h + 1
  verify := fun _ _ _ => true
  toNodeIndex := fun p => p
  headerOf := fun sessionIndex b => sessionIndex + b.items.length
  decodeItems := fun bytes =>
    if bytes = [] then .error "decoding failed"
    else .ok (bytes.map (fun n => ConsensusItem.module ⟨0, n⟩))
  decodeSignedBlock := fun bytes =>
    if bytes = [1] then .ok ⟨⟨[]⟩, [(0, 1), (1, 1), (2, 1)]⟩
    else .error "decoding failed"

/-- The empty database state over module state `Nat`. -/
def dbInit : DbState Nat where
  acceptedItems := []
  acceptedTransactions := []
  signedBlocks := []
  alephUnits := []
  clientConfigSignature := none
  clientConfigSignatureShares := []
  moduleState := 0

/-- A concrete module consensus item. -/
def itemM : ConsensusItem := .module ⟨0, 5⟩

/-- A concrete transaction consensus item with hash 7 and one output. -/
def txX : Transaction := ⟨7, [⟨2⟩]⟩

/-- A database state that already holds `itemM` from peer 0 at item index 0. -/
def dbWithAccepted : DbState Nat :=
  { dbInit with acceptedItems := [(0, ⟨itemM, 0⟩)] }

/-- C1: for every call to `process_consensus_item`, if an `AcceptedItem` is
already stored at the item index with the identical `(item, peer)` pair the
call returns success and changes no persisted state; if one is stored with a
different `(item, peer)` the call returns the "discarded before recovery"
error and leaves all persisted state unchanged; and on any rejection no
`AcceptedItem` entry is written (the persisted state after an error is exactly
the pre-call state). -/
theorem process_consensus_item_idempotency_guard {σ : Type} (srv : Server σ)
    (s : DbState σ) (sessionIndex itemIndex : Nat) (item : ConsensusItem)
    (peer : PeerId) :
    (getValue s.acceptedItems itemIndex = some ⟨item, peer⟩ →
      processConsensusItem srv s sessionIndex itemIndex item peer = .ok s)
    ∧ (∀ a, getValue s.acceptedItems itemIndex = some a → a ≠ ⟨item, peer⟩ →
      processConsensusItem srv s sessionIndex itemIndex item peer =
        .err "Consensus item was discarded before recovery" s)
    ∧ (∀ m s', processConsensusItem srv s sessionIndex itemIndex item peer = .err m s' →
      s' = s) := by
  refine ⟨?_, ?_, ?_⟩
  · intro h
    simp [processConsensusItem, h]
  · intro a h hne
    have hcond : ¬ (a.item = item ∧ a.peer = peer) := by
      rintro ⟨h1, h2⟩
      exact hne (by cases a; simp_all)
    simp [processConsensusItem, h, hcond]
  · intro m s' h
    unfold processConsensusItem at h
    split at h
    · split at h
      · exact absurd h (by simp)
      · injection h with h1 h2
        exact h2.symm
    · split at h
      · injection h with h1 h2
        exact h2.symm
      · rename_i s1 heq
        by_cases ha : aggregateAudit srv s1.moduleState < 0 <;> simp [ha] at h

/-- C1 witness: concrete redelivery of the stored item succeeds without state
change, and redelivery with a different peer fails with the recovery error. -/
theorem process_consensus_item_idempotency_guard_witness :
    processConsensusItem natServer dbWithAccepted 0 0 itemM 0 = .ok dbWithAccepted ∧
    processConsensusItem natServer dbWithAccepted 0 0 itemM 1 =
      .err "Consensus item was discarded before recovery" dbWithAccepted :=
  ⟨(process_consensus_item_idempotency_guard natServer dbWithAccepted 0 0 itemM 0).1
      (by decide),
   (process_consensus_item_idempotency_guard natServer dbWithAccepted 0 0 itemM 1).2.1
      ⟨itemM, 0⟩ (by decide) (by decide)⟩

/-- C2: whenever `process_consensus_item` actually commits a new item (the
item-index guard found no prior entry and the call returns success), the
aggregate net asset balance over all module audits is nonnegative; and if the
dispatched item would leave a negative aggregate balance, the call panics
instead of committing. -/
theorem audit_nonneg_after_commit {σ : Type} (srv : Server σ) (s : DbState σ)
    (sessionIndex itemIndex : Nat) (item : ConsensusItem) (peer : PeerId) :
    (∀ s', getValue s.acceptedItems itemIndex = none →
      processConsensusItem srv s sessionIndex itemIndex item peer = .ok s' →
      0 ≤ aggregateAudit srv s'.moduleState)
    ∧ (∀ s1, getValue s.acceptedItems itemIndex = none →
      processWithDbtx srv s item peer = .ok s1 →
      aggregateAudit srv s1.moduleState < 0 →
      processConsensusItem srv s sessionIndex itemIndex item peer =
        .panic "Balance sheet of the fed has gone negative") := by
  constructor
  · intro s' hnone h
    unfold processConsensusItem at h
    rw [hnone] at h
    rcases hp : processWithDbtx srv s item peer with e | s1
    · rw [hp] at h
      simp at h
    · rw [hp] at h
      by_cases ha : aggregateAudit srv s1.moduleState < 0
      · simp [ha] at h
      · simp [ha] at h
        subst h
        simpa using not_lt.mp ha
  · intro s1 hnone h ha
    unfold processConsensusItem
    rw [hnone, h]
    simp [ha]

/-- C2 witness: a concrete committed module item yields a nonnegative
aggregate audit balance. -/
theorem audit_nonneg_after_commit_witness :
    0 ≤ aggregateAudit natServer
      ({ dbInit with acceptedItems := [(0, ⟨itemM, 0⟩)] } : DbState Nat).moduleState :=
  (audit_nonneg_after_commit natServer dbInit 0 0 itemM 0).1
    { dbInit with acceptedItems := [(0, ⟨itemM, 0⟩)] } (by decide) (by decide)

/-- The state obtained by accepting `txX` from peer 0 at item index 0 on the
empty database. -/
def processAfterTx : DbState Nat :=
  { dbInit with
    acceptedItems := [(0, ⟨.transaction txX, 0⟩)],
    acceptedTransactions := [(7, [2])] }

/-- C3: for a `Transaction` item that passes the item-index guard, the call is
rejected — with an error that leaves the persisted state exactly as before —
if and only if `AcceptedTransaction[tx_hash]` already exists or the external
transaction processor fails; and on acceptance
`AcceptedTransaction[tx_hash]` is set to the transaction's output module
instance ids (so a `tx_hash` that is already present can never be accepted
again). -/
theorem transaction_dedup_and_recording {σ : Type} (srv : Server σ)
    (s : DbState σ) (sessionIndex itemIndex : Nat) (tx : Transaction)
    (peer : PeerId) (hguard : getValue s.acceptedItems itemIndex = none) :
    ((∃ e, processConsensusItem srv s sessionIndex itemIndex (.transaction tx) peer =
        .err e s) ↔
      ((getValue s.acceptedTransactions tx.txHash).isSome ∨
        ∃ e', srv.processTransaction s.moduleState tx = .error e'))
    ∧ (∀ s', processConsensusItem srv s sessionIndex itemIndex (.transaction tx) peer =
        .ok s' →
      getValue s.acceptedTransactions tx.txHash = none ∧
      getValue s'.acceptedTransactions tx.txHash =
        some (tx.outputs.map (·.moduleInstanceId))) := by
  constructor
  · constructor
    · rintro ⟨e, h⟩
      unfold processConsensusItem at h
      rw [hguard] at h
      rcases hp : processWithDbtx srv s (.transaction tx) peer with e' | s1
      · unfold processWithDbtx at hp
        by_cases hdup : (getValue s.acceptedTransactions tx.txHash).isSome
        · exact Or.inl hdup
        · simp only [hdup] at hp
          rcases ht : srv.processTransaction s.moduleState tx with e'' | ms
          · exact Or.inr ⟨e'', rfl⟩
          · rw [ht] at hp
            simp at hp
      · rw [hp] at h
        by_cases ha : aggregateAudit srv s1.moduleState < 0 <;> simp [ha] at h
    · intro hrej
      unfold processConsensusItem
      rw [hguard]
      unfold processWithDbtx
      rcases hrej with hdup | ⟨e', ht⟩
      · simp only [hdup]
        exact ⟨"The transaction is already accepted", by simp⟩
      · by_cases hdup : (getValue s.acceptedTransactions tx.txHash).isSome
        · simp only [hdup]
          exact ⟨"The transaction is already accepted", by simp⟩
        · simp only [hdup, ht]
          exact ⟨e', by simp⟩
  · intro s' h
    unfold processConsensusItem at h
    rw [hguard] at h
    rcases hp : processWithDbtx srv s (.transaction tx) peer with e' | s1
    · rw [hp] at h
      simp at h
    · rw [hp] at h
      by_cases ha : aggregateAudit srv s1.moduleState < 0
      · simp [ha] at h
      · simp [ha] at h
        unfold processWithDbtx at hp
        by_cases hdup : (getValue s.acceptedTransactions tx.txHash).isSome
        · simp [hdup] at hp
        · simp only [hdup] at hp
          rcases ht : srv.processTransaction s.moduleState tx with e'' | ms
          · rw [ht] at hp
            simp at hp
          · rw [ht] at hp
            simp at hp
            refine ⟨by simpa using hdup, ?_⟩
            subst h
            rw [← hp]
            simpa using getValue_insertEntry_self s.acceptedTransactions tx.txHash
              (tx.outputs.map (·.moduleInstanceId))

/-- C3 witness: a concrete fresh transaction is accepted and recorded under
its hash with its output module ids. -/
theorem transaction_dedup_and_recording_witness :
    getValue dbInit.acceptedTransactions txX.txHash = none ∧
    getValue (processAfterTx).acceptedTransactions txX.txHash = some [2] :=
  (transaction_dedup_and_recording natServer dbInit 0 0 txX 0 (by decide)).2
    processAfterTx (by decide)

/-- C4: a `ClientConfigSignatureShare` from peer `p` is rejected if the
combined signature is already stored, rejected if a share from `p` is already
stored, rejected if the share does not verify against `p`'s public-key share;
otherwise the share is inserted, and exactly when the number of stored shares
strictly exceeds the threshold, the shares are combined, every stored share is
deleted, and the combined signature is stored. -/
theorem client_config_share_processing {σ : Type} (srv : Server σ)
    (s : DbState σ) (share : Nat) (p : PeerId) :
    (s.clientConfigSignature.isSome →
      processWithDbtx srv s (.clientConfigSignatureShare share) p =
        .error "Client config is already signed")
    ∧ (s.clientConfigSignature = none →
       (getValue s.clientConfigSignatureShares p).isSome →
      processWithDbtx srv s (.clientConfigSignatureShare share) p =
        .error "Already received a valid signature share for this peer")
    ∧ (s.clientConfigSignature = none →
       getValue s.clientConfigSignatureShares p = none →
       srv.verifyShare p share = false →
      processWithDbtx srv s (.clientConfigSignatureShare share) p =
        .error "Client config signature share is invalid")
    ∧ (s.clientConfigSignature = none →
       getValue s.clientConfigSignatureShares p = none →
       srv.verifyShare p share = true →
       (insertEntry s.clientConfigSignatureShares p share).length ≤ srv.authThreshold →
      processWithDbtx srv s (.clientConfigSignatureShare share) p =
        .ok { s with
              clientConfigSignatureShares := insertEntry s.clientConfigSignatureShares p share })
    ∧ (s.clientConfigSignature = none →
       getValue s.clientConfigSignatureShares p = none →
       srv.verifyShare p share = true →
       srv.authThreshold < (insertEntry s.clientConfigSignatureShares p share).length →
      processWithDbtx srv s (.clientConfigSignatureShare share) p =
        .ok { s with
              clientConfigSignatureShares := [],
              clientConfigSignature :=
                some (srv.combineShares (insertEntry s.clientConfigSignatureShares p share)) }) := by
  refine ⟨?_, ?_, ?_, ?_, ?_⟩
  · intro h
    simp [processWithDbtx, h]
  · intro hnone hdup
    simp [processWithDbtx, hnone, hdup]
  · intro hnone hdup hbad
    simp [processWithDbtx, hnone, hdup, hbad]
  · intro hnone hdup hok hle
    simp [processWithDbtx, hnone, hdup, hok, hle]
  · intro hnone hdup hok hgt
    simp [processWithDbtx, hnone, hdup, hok, not_le.mpr hgt]

/-- C4 witness: with threshold 2, the third stored share triggers the
combination — shares are cleared and the combined signature stored — while the
second share is merely inserted. -/
theorem client_config_share_processing_witness :
    processWithDbtx natServer
        { dbInit with clientConfigSignatureShares := [(1, 11)] }
        (.clientConfigSignatureShare 11) 0 =
      .ok { dbInit with clientConfigSignatureShares := [(1, 11), (0, 11)] } ∧
    processWithDbtx natServer
        { dbInit with clientConfigSignatureShares := [(1, 11), (2, 11)] }
        (.clientConfigSignatureShare 11) 0 =
      .ok { dbInit with
            clientConfigSignatureShares := [],
            clientConfigSignature := some 99 } :=
  ⟨(client_config_share_processing natServer
      { dbInit with clientConfigSignatureShares := [(1, 11)] } 11 0).2.2.2.1
      rfl (by decide) rfl (by decide),
   (client_config_share_processing natServer
      { dbInit with clientConfigSignatureShares := [(1, 11), (2, 11)] } 11 0).2.2.2.2
      rfl (by decide) rfl (by decide)⟩

/-- C5: `complete_session` panics rather than overwrite an existing
`SignedBlock[session_index]`; otherwise it commits, in one atomic step, a
state whose `AlephUnits` and `AcceptedItem` keyspaces are empty, whose
`SignedBlock[session_index]` is the given signed block, and whose remaining
keyspaces are untouched. -/
theorem complete_session_atomic_write_once {σ : Type} (s : DbState σ)
    (sessionIndex : Nat) (signedBlock : SignedBlock) :
    ((getValue s.signedBlocks sessionIndex).isSome →
      completeSession s sessionIndex signedBlock =
        .panic "We tried to overwrite a signed block")
    ∧ (getValue s.signedBlocks sessionIndex = none →
      ∃ s', completeSession s sessionIndex signedBlock = .ok s' ∧
        s'.alephUnits = [] ∧
        s'.acceptedItems = [] ∧
        getValue s'.signedBlocks sessionIndex = some signedBlock ∧
        (∀ j, j ≠ sessionIndex → getValue s'.signedBlocks j = getValue s.signedBlocks j) ∧
        s'.acceptedTransactions = s.acceptedTransactions ∧
        s'.clientConfigSignature = s.clientConfigSignature ∧
        s'.clientConfigSignatureShares = s.clientConfigSignatureShares ∧
        s'.moduleState = s.moduleState) := by
  constructor
  · intro h
    rcases hs : getValue s.signedBlocks sessionIndex with _ | sb
    · rw [hs] at h
      simp at h
    · simp [completeSession, hs]
  · intro h
    refine ⟨{ s with
              alephUnits := [], acceptedItems := [],
              signedBlocks := insertEntry s.signedBlocks sessionIndex signedBlock },
      ?_, rfl, rfl,
      getValue_insertEntry_self s.signedBlocks sessionIndex signedBlock,
      fun j hj => getValue_insertEntry_ne s.signedBlocks sessionIndex j signedBlock hj,
      rfl, rfl, rfl, rfl⟩
    simp [completeSession, h]

/-- C5 witness: on a state already holding a signed block for session 0 the
call panics instead of overwriting it. -/
theorem complete_session_atomic_write_once_witness :
    completeSession
        ({ dbInit with signedBlocks := [(0, ⟨⟨[]⟩, [(0, 1)]⟩)] } : DbState Nat) 0
        ⟨⟨[]⟩, [(0, 1)]⟩ =
      .panic "We tried to overwrite a signed block" :=
  (complete_session_atomic_write_once
      { dbInit with signedBlocks := [(0, ⟨⟨[]⟩, [(0, 1)]⟩)] } 0 ⟨⟨[]⟩, [(0, 1)]⟩).1
    (by decide)

/-- C6: in the catch-up branch of `complete_signed_block`, a fetched block
whose leading items do not equal the locally accepted items panics; a tail
item rejected by `process_consensus_item` panics; and a successful
reconciliation returns the fetched signed block unchanged, with the prefix
having matched and the whole tail having been processed successfully. -/
theorem catch_up_prefix_and_tail {σ : Type} (srv : Server σ) (s : DbState σ)
    (sessionIndex itemIndex : Nat) (sb : SignedBlock) :
    (sb.block.items.take (buildBlock s).items.length ≠ (buildBlock s).items →
      catchUpReconcile srv s sessionIndex itemIndex sb =
        .panic "assertion failed, processed items do not match the local block")
    ∧ (∀ (s0 : DbState σ) (i0 : Nat) (a : AcceptedItem) (rest : List AcceptedItem)
        (m : String) (s1 : DbState σ),
        processConsensusItem srv s0 sessionIndex i0 a.item a.peer = .err m s1 →
        processTail srv s0 sessionIndex i0 (a :: rest) =
          .panic ("assertion failed, tail item was rejected: " ++ m))
    ∧ (∀ s' sb', catchUpReconcile srv s sessionIndex itemIndex sb = .ok (s', sb') →
        sb' = sb ∧
        sb.block.items.take (buildBlock s).items.length = (buildBlock s).items ∧
        ∃ i', processTail srv s sessionIndex itemIndex
            (sb.block.items.drop (buildBlock s).items.length) = .ok (s', i')) := by
  refine ⟨?_, ?_, ?_⟩
  · intro h
    simp [catchUpReconcile, h]
  · intro s0 i0 a rest m s1 h
    simp [processTail, h]
  · intro s' sb' h
    unfold catchUpReconcile at h
    by_cases hpre : sb.block.items.take (buildBlock s).items.length = (buildBlock s).items
    · rw [if_pos hpre] at h
      rcases ht : processTail srv s sessionIndex itemIndex
          (sb.block.items.drop (buildBlock s).items.length) with p | ⟨m, p⟩ | m
      · rw [ht] at h
        obtain ⟨sr, ir⟩ := p
        simp at h
        exact ⟨h.2.symm, hpre, ir, by rw [h.1]⟩
      · rw [ht] at h
        simp at h
      · rw [ht] at h
        simp at h
    · rw [if_neg hpre] at h
      simp at h

/-- C6 witness: a fetched block that contradicts the locally accepted item at
index 0 makes the reconciliation panic. -/
theorem catch_up_prefix_and_tail_witness :
    catchUpReconcile natServer dbWithAccepted 0 1 ⟨⟨[⟨itemM, 1⟩]⟩, []⟩ =
      .panic "assertion failed, processed items do not match the local block" :=
  (catch_up_prefix_and_tail natServer dbWithAccepted 0 1 ⟨⟨[⟨itemM, 1⟩]⟩, []⟩).1
    (by decide)

/-- C7: the `request_signed_block` filter accepts a peer response exactly when
it decodes under the module decoder registry, carries exactly `threshold()`
signatures, and every signature verifies against the block's header for the
requested session index under the claimed peer's node index; every other
response is mapped to an error. -/
theorem signed_block_filter_characterization {σ : Type} (srv : Server σ)
    (index : Nat) (response : List Nat) (sb : SignedBlock) :
    filterMapResponse srv index response = .ok sb ↔
      (srv.decodeSignedBlock response = .ok sb ∧
        sb.signatures.length = srv.keychainThreshold ∧
        sb.signatures.all (fun p =>
          srv.verify (srv.headerOf index sb.block) p.2 (srv.toNodeIndex p.1)) = true) := by
  constructor
  · intro h
    unfold filterMapResponse at h
    split at h
    · rename_i sb0 heq
      split at h
      · rename_i hcond
        injection h with h1
        subst h1
        simp only [Bool.and_eq_true, beq_iff_eq] at hcond
        exact ⟨heq, hcond.1, hcond.2⟩
      · exact absurd h (by simp)
    · exact absurd h (by simp)
  · rintro ⟨hd, hlen, hall⟩
    unfold filterMapResponse
    rw [hd]
    simp [hlen, hall]

/-- Unfolding equation of `phaseAStep` on a `Batch` unit. -/
theorem phaseAStep_batch_eq {σ : Type} (srv : Server σ) (s : DbState σ)
    (sessionIndex numBatches itemIndex : Nat) (bytes : List Nat) (peer : PeerId) :
    phaseAStep srv s sessionIndex numBatches itemIndex (.batch bytes) peer =
      match srv.decodeItems bytes with
      | .error _ => .ok (s, numBatches + 1, itemIndex)
      | .ok items =>
          match processBatchItems srv s sessionIndex itemIndex peer items with
          | .ok (s', itemIndex') => .ok (s', numBatches + 1, itemIndex')
          | .err m a => .err m (a.1, numBatches + 1, a.2)
          | .panic m => .panic m := rfl

/-- C7 witness: a concrete response that decodes to a block with exactly three
verifying signatures (the keychain threshold) passes the filter. -/
theorem signed_block_filter_characterization_witness :
    filterMapResponse natServer 0 [1] = .ok ⟨⟨[]⟩, [(0, 1), (1, 1), (2, 1)]⟩ :=
  (signed_block_filter_characterization natServer 0 [1]
      ⟨⟨[]⟩, [(0, 1), (1, 1), (2, 1)]⟩).mpr ⟨rfl, rfl, rfl⟩

/-- C8: phase A of `complete_signed_block` — a batch that fails to decode is
dropped whole, with state and `item_index` unchanged, yet still counts toward
`batches_per_session`; a batch that decodes has its items processed one by
one and still increments the batch counter by exactly one; a rejected item is
dropped with `item_index` unchanged while an accepted item advances it. -/
theorem phase_a_batch_handling {σ : Type} (srv : Server σ) (s : DbState σ)
    (sessionIndex numBatches itemIndex : Nat) (bytes : List Nat) (peer : PeerId) :
    (∀ e, srv.decodeItems bytes = .error e →
      phaseAStep srv s sessionIndex numBatches itemIndex (.batch bytes) peer =
        .ok (s, numBatches + 1, itemIndex))
    ∧ (∀ items s' numBatches' itemIndex', srv.decodeItems bytes = .ok items →
        phaseAStep srv s sessionIndex numBatches itemIndex (.batch bytes) peer =
          .ok (s', numBatches', itemIndex') →
        numBatches' = numBatches + 1 ∧
        processBatchItems srv s sessionIndex itemIndex peer items = .ok (s', itemIndex'))
    ∧ (∀ (s0 : DbState σ) (i0 : Nat) (item : ConsensusItem) (rest : List ConsensusItem)
        (m : String) (s1 : DbState σ),
        processConsensusItem srv s0 sessionIndex i0 item peer = .err m s1 →
        processBatchItems srv s0 sessionIndex i0 peer (item :: rest) =
          processBatchItems srv s0 sessionIndex i0 peer rest)
    ∧ (∀ (s0 : DbState σ) (i0 : Nat) (item : ConsensusItem) (rest : List ConsensusItem)
        (s2 : DbState σ),
        processConsensusItem srv s0 sessionIndex i0 item peer = .ok s2 →
        processBatchItems srv s0 sessionIndex i0 peer (item :: rest) =
          processBatchItems srv s2 sessionIndex (i0 + 1) peer rest) := by
  refine ⟨?_, ?_, ?_, ?_⟩
  · intro e he
    rw [phaseAStep_batch_eq, he]
  · intro items s' numBatches' itemIndex' hd h
    rw [phaseAStep_batch_eq, hd] at h
    dsimp only at h
    rcases hp : processBatchItems srv s sessionIndex itemIndex peer items
      with p | ⟨m, p⟩ | m
    · rw [hp] at h
      obtain ⟨sr, ir⟩ := p
      simp at h
      exact ⟨h.2.1.symm, by rw [h.1, h.2.2]⟩
    · rw [hp] at h
      simp at h
    · rw [hp] at h
      simp at h
  · intro s0 i0 item rest m s1 h
    simp [processBatchItems, h]
  · intro s0 i0 item rest s2 h
    simp [processBatchItems, h]

/-- C8 witness: a concrete undecodable batch is dropped whole while the batch
counter still advances. -/
theorem phase_a_batch_handling_witness :
    phaseAStep natServer dbInit 0 0 0 (.batch []) 1 = .ok (dbInit, 1, 0) :=
  (phase_a_batch_handling natServer dbInit 0 0 0 [] 1).1 "decoding failed" rfl

/-- C9 counterexample: in the single-guardian path with no submitted items the
session does not end — the loop is still blocked on `recv` — because the
60-second timeout is only checked after an item has been received and
processed, contradicting the claim that every session ends once 60 seconds
have elapsed even when no items are submitted. -/
theorem single_guardian_no_items_blocks :
    runSingleGuardianSession natServer dbInit 0 [] = .blocked dbInit := rfl

/-- C9 (amended): the single-guardian item loop terminates at the first item
received once more than 60 seconds have elapsed (the timeout is checked only
after processing a received item), or when the submission channel closes; with
no events the loop stays blocked on `recv`; and whenever the session body
completes, the committed state holds a signed block for the session whose
signature map is exactly the local identity's self-signature over the block's
header, with the `AcceptedItem` and `AlephUnits` keyspaces cleared. -/
theorem single_guardian_session_behaviour {σ : Type} (srv : Server σ)
    (s : DbState σ) (sessionIndex itemIndex : Nat) (item : ConsensusItem)
    (elapsedSecs : Nat) (rest events : List RecvEvent) (s'' : DbState σ) :
    (60 < elapsedSecs →
      singleGuardianLoop srv s sessionIndex itemIndex
          (.received item elapsedSecs :: rest) =
        match processConsensusItem srv s sessionIndex itemIndex item srv.localIdentity with
        | .panic m => .panicked m
        | .ok s' => .finished s' (itemIndex + 1)
        | .err _ _ => .finished s itemIndex)
    ∧ (singleGuardianLoop srv s sessionIndex itemIndex (.closed :: rest) =
        .finished s itemIndex)
    ∧ (singleGuardianLoop srv s sessionIndex itemIndex [] = .stillWaiting s itemIndex)
    ∧ (runSingleGuardianSession srv s sessionIndex events = .completed s'' →
      ∃ sb, getValue s''.signedBlocks sessionIndex = some sb ∧
        sb.signatures =
          [(srv.localIdentity, srv.sign (srv.headerOf sessionIndex sb.block))] ∧
        s''.acceptedItems = [] ∧
        s''.alephUnits = []) := by
  refine ⟨?_, rfl, rfl, ?_⟩
  · intro h
    unfold singleGuardianLoop
    rcases hp : processConsensusItem srv s sessionIndex itemIndex item srv.localIdentity
      with s' | ⟨m, s'⟩ | m
    · simp [h]
    · simp [h]
    · simp
  · intro h
    unfold runSingleGuardianSession at h
    dsimp only at h
    rcases hl : singleGuardianLoop srv s sessionIndex (buildBlock s).items.length events
      with ⟨sl, il⟩ | ⟨sl, il⟩ | m
    · rw [hl] at h
      dsimp only at h
      rcases hc : completeSession sl sessionIndex
          ⟨buildBlock sl, [(srv.localIdentity, srv.sign (srv.headerOf sessionIndex (buildBlock sl)))]⟩
        with sc | ⟨m, sc⟩ | m
      · rw [hc] at h
        simp at h
        subst h
        unfold completeSession at hc
        dsimp only at hc
        rcases hb : getValue sl.signedBlocks sessionIndex with _ | old
        · rw [hb] at hc
          simp at hc
          refine ⟨⟨buildBlock sl,
            [(srv.localIdentity, srv.sign (srv.headerOf sessionIndex (buildBlock sl)))]⟩,
            ?_, rfl, ?_, ?_⟩
          · rw [← hc]
            exact getValue_insertEntry_self sl.signedBlocks sessionIndex _
          · rw [← hc]
          · rw [← hc]
        · rw [hb] at hc
          simp at hc
      · rw [hc] at h
        simp at h
      · rw [hc] at h
        simp at h
    · rw [hl] at h
      simp at h
    · rw [hl] at h
      simp at h

/-- C9 witness: with a timed-out event trace the loop finishes at that item,
and a session over that trace completes with the single self-signature. -/
theorem single_guardian_session_behaviour_witness :
    singleGuardianLoop natServer dbInit 0 0 [.received itemM 61] =
      .finished
        { dbInit with acceptedItems := [(0, ⟨itemM, 0⟩)] } 1 :=
  by
    have h := (single_guardian_session_behaviour natServer dbInit 0 0 itemM 61 [] [] dbInit).1
      (by decide)
    rw [h]
    rfl

/-- C10: `run` dispatches on the number of broadcast public keys — exactly one
member runs the single-guardian path, any other size enters `run_consensus`,
which asserts at least four members; consequently a federation of exactly 2 or
3 members panics instead of running consensus. -/
theorem run_dispatch_membership (n : Nat) :
    (n = 1 → runDispatch n = .singleGuardian)
    ∧ (n ≠ 1 → runDispatch n = runConsensusEntry n)
    ∧ (4 ≤ n → runDispatch n = .multiGuardian)
    ∧ (runDispatch 2 = .panicked)
    ∧ (runDispatch 3 = .panicked) := by
  refine ⟨?_, ?_, ?_, by decide, by decide⟩
  · intro h
    simp [runDispatch, h]
  · intro h
    simp [runDispatch, h]
  · intro h
    have h1 : n ≠ 1 := by omega
    simp [runDispatch, runConsensusEntry, h, h1]

/-- C10 witness: a one-member federation takes the single-guardian path and a
five-member federation takes the multi-guardian path. -/
theorem run_dispatch_membership_witness :
    runDispatch 1 = RunPath.singleGuardian ∧ runDispatch 5 = RunPath.multiGuardian :=
  ⟨(run_dispatch_membership 1).1 rfl, (run_dispatch_membership 5).2.2.1 (by decide)⟩

end FedimintConsensus
